import Mathlib

/-!
Verification of the preview-rendering pipeline in openaddr/preview.py.

Modelling conventions:
* Python floats are modelled as real numbers; CSV cell values that must parse
  as numbers are modelled as rationals (decimal literals are rational).
* Failures (raised exceptions) are modelled with Except PyError; I/O
  collaborators (the resolved source file, the tile service) enter as
  Except-valued inputs, so a transport failure is an error value.
* The osgeo coordinate transformation EPSG4326 to EPSG900913 is the spherical
  Web Mercator map; tile feature geometries parsed from GeoJSON are one of the
  six concrete GeoJSON geometry kinds, carried as a tagged variant.
-/

namespace Preview

/-- Exceptions the pipeline can raise, named after their Python counterparts.
A transport or JSON failure from requests is requestException. -/
inductive PyError where
  | valueError
  | zeroDivisionError
  | keyError
  | notImplementedError
  | requestException
  deriving DecidableEq

/-- Python int() applied to a float: truncation toward zero. -/
noncomputable def pyInt (x : ℝ) : ℤ := if 0 ≤ x then ⌊x⌋ else ⌈x⌉

/-- Python round() applied to a float: round half to even, otherwise to the
nearest integer. -/
noncomputable def pyRound (x : ℝ) : ℤ :=
  if x - ⌊x⌋ = 1 / 2 then (if Even ⌊x⌋ then ⌊x⌋ else ⌊x⌋ + 1) else round x

/-- Python range(a, b) as a list of integers a, a+1, ..., b-1. -/
def pyRange (a b : ℤ) : List ℤ := (List.range (b - a).toNat).map (fun (i : ℕ) => a + (i : ℤ))

/-- Python min over a nonempty list, written as head and tail. -/
noncomputable def pyMin (x : ℝ) (l : List ℝ) : ℝ := l.foldl min x

/-- Python max over a nonempty list, written as head and tail. -/
noncomputable def pyMax (x : ℝ) (l : List ℝ) : ℝ := l.foldl max x

/-- Python min over a list value, 0 when the list is empty (the empty case
raises in Python; the development proves it is never reached where used). -/
noncomputable def listMin : List ℝ → ℝ
  | [] => 0
  | x :: xs => pyMin x xs

/-- Python max over a list value, 0 when the list is empty. -/
noncomputable def listMax : List ℝ → ℝ
  | [] => 0
  | x :: xs => pyMax x xs

/-- Python substring containment, needle in hay, on strings. -/
def pyIn (needle hay : String) : Bool :=
  (List.range (hay.data.length + 1)).any (fun i => needle.data.isPrefixOf (hay.data.drop i))

/-- EARTH_DIAMETER = 6378137 * 2 * pi from preview.py. -/
noncomputable def EARTH_DIAMETER : ℝ := 6378137 * 2 * Real.pi

/-- Modelled from the spec (4.1): the osgeo osr transformation from EPSG4326
to EPSG900913 built by get_projection, which is not itself in src/: spherical
Web Mercator with sphere radius 6378137. -/
noncomputable def webMercator (p : ℝ × ℝ) : ℝ × ℝ :=
  (p.1 * Real.pi / 180 * 6378137,
   6378137 * Real.log (Real.tan (Real.pi / 4 + p.2 * Real.pi / 360)))

/-- Rounding to 7 decimal places, as the point formatting in project_points
does before the transform. -/
def q7 (q : ℚ) : ℚ := round (q * 10 ^ 7) / 10 ^ 7

/-- project_points: format each lon/lat pair to 7 decimal places, build a
point geometry and transform it to Web Mercator. -/
noncomputable def project_points (lonlats : List (ℚ × ℚ)) : List (ℝ × ℝ) :=
  lonlats.map (fun p => webMercator ((q7 p.1 : ℚ), (q7 p.2 : ℚ)))

/-- One CSV row as DictReader hands it over: the result of float(row[LON])
and float(row[LAT]); none models a missing column or a value that fails to
parse as a number (both raise, and the row is skipped). -/
structure Row where
  lon : Option ℚ
  lat : Option ℚ

/-- The acceptance test of iterate_file_points on one row: both coordinates
parse and lie in valid degree ranges. -/
def validRow (r : Row) : Bool :=
  match r.lon, r.lat with
  | some lon, some lat => decide (-180 ≤ lon ∧ lon ≤ 180 ∧ -90 ≤ lat ∧ lat ≤ 90)
  | _, _ => false

/-- iterate_file_points, after the CSV has been read into rows: parse LON and
LAT, skip the row on failure, and yield only in-range coordinate pairs. -/
def iterate_file_points : List Row → List (ℚ × ℚ)
  | [] => []
  | r :: rest =>
    match r.lon, r.lat with
    | some lon, some lat =>
      if -180 ≤ lon ∧ lon ≤ 180 ∧ -90 ≤ lat ∧ lat ≤ 90 then
        (lon, lat) :: iterate_file_points rest
      else iterate_file_points rest
    | _, _ => iterate_file_points rest

/-- stats: mean and population standard deviation of a list of values. -/
noncomputable def stats (values : List ℝ) : ℝ × ℝ :=
  let mean := values.sum / values.length
  let deviations := values.map (fun val => (val - mean) ^ 2)
  (mean, Real.sqrt (deviations.sum / values.length))

/-- The filtered x values of calculate_bounds: x coordinates of the points
whose x lies within 5 standard deviations of the x mean. -/
noncomputable def okay_xs (points : List (ℝ × ℝ)) : List ℝ :=
  let s := stats (points.map Prod.fst)
  (points.filter (fun p => decide (s.1 - 5 * s.2 ≤ p.1 ∧ p.1 ≤ s.1 + 5 * s.2))).map Prod.fst

/-- The filtered y values of calculate_bounds: y coordinates of the points
whose y lies within 3 standard deviations of the y mean. -/
noncomputable def okay_ys (points : List (ℝ × ℝ)) : List ℝ :=
  let s := stats (points.map Prod.snd)
  (points.filter (fun p => decide (s.1 - 3 * s.2 ≤ p.2 ∧ p.2 ≤ s.1 + 3 * s.2))).map Prod.snd

/-- calculate_bounds: an empty point list fails at the unpacking of
zip(points), an empty filtered list fails at min(); otherwise take per-axis
min and max of the filtered values and pad every side by 2 percent. Returns
(left, bottom, right, top). -/
noncomputable def calculate_bounds (points : List (ℝ × ℝ)) :
    Except PyError (ℝ × ℝ × ℝ × ℝ) :=
  if points.isEmpty then .error .valueError else
  match okay_xs points, okay_ys points with
  | x :: xs, y :: ys =>
    let left := pyMin x xs
    let bottom := pyMin y ys
    let right := pyMax x xs
    let top := pyMax y ys
    let width := right - left
    let height := top - bottom
    .ok (left - width / 50, bottom - height / 50, right + width / 50, top + height / 50)
  | _, _ => .error .valueError

/-- The bounding box as section 4.3 of the spec words it: per-axis mean and
population standard deviation, keep x values within meanX plus or minus
5 sdX and y values within meanY plus or minus 3 sdY (each axis on its own),
take min and max of the surviving values, then widen each of the four sides
by exactly 2 percent of the resulting width or height. -/
noncomputable def spec_box (points : List (ℝ × ℝ)) : ℝ × ℝ × ℝ × ℝ :=
  let xs := points.map Prod.fst
  let ys := points.map Prod.snd
  let sx := stats xs
  let sy := stats ys
  let keptx := xs.filter (fun v => decide (sx.1 - 5 * sx.2 ≤ v ∧ v ≤ sx.1 + 5 * sx.2))
  let kepty := ys.filter (fun v => decide (sy.1 - 3 * sy.2 ≤ v ∧ v ≤ sy.1 + 3 * sy.2))
  let xlo := listMin keptx
  let xhi := listMax keptx
  let ylo := listMin kepty
  let yhi := listMax kepty
  (xlo - (2 / 100) * (xhi - xlo), ylo - (2 / 100) * (yhi - ylo),
   xhi + (2 / 100) * (xhi - xlo), yhi + (2 / 100) * (yhi - ylo))

/-- calculate_zoom: web map zoom from scale and resolution. -/
noncomputable def calculate_zoom (scale : ℝ) (resolution : ℕ) : ℝ :=
  let scale_at_zero := resolution * 256 / EARTH_DIAMETER
  Real.log (scale / scale_at_zero) / Real.log 2

/-- make_context: canvas sizes and horizontal drawing scale. A zero height
fails at the aspect division, a zero width at the height division (Python
ZeroDivisionError); the cairo surface and the vertical part of the transform
only carry the drawing and are not needed by the claims. Returns
(hsize, vsize, hscale). -/
noncomputable def make_context (left bottom right top : ℝ) (width resolution : ℕ) :
    Except PyError (ℤ × ℤ × ℝ) :=
  if top - bottom = 0 then .error .zeroDivisionError else
  let aspect := (right - left) / (top - bottom)
  if aspect = 0 then .error .zeroDivisionError else
  let hsize : ℤ := (resolution : ℤ) * width
  let vsize : ℤ := pyInt ((hsize : ℝ) / aspect)
  let hscale := (hsize : ℝ) / (right - left)
  .ok (hsize, vsize, hscale)

/-- The fractional tile column of a Mercator x coordinate at a zoom, as
computed for mincol and maxcol in get_map_features. -/
noncomputable def colAt (zoom : ℤ) (x : ℝ) : ℝ :=
  (2 : ℝ) ^ zoom * (x + EARTH_DIAMETER / 2) / EARTH_DIAMETER

/-- The fractional tile row of a Mercator y coordinate at a zoom, as computed
for minrow and maxrow in get_map_features (row 0 at the north edge). -/
noncomputable def rowAt (zoom : ℤ) (y : ℝ) : ℝ :=
  (2 : ℝ) ^ zoom * (EARTH_DIAMETER / 2 - y) / EARTH_DIAMETER

/-- The (row, col) tile list of get_map_features: the product of
range(int(minrow), int(maxrow) + 1) and range(int(mincol), int(maxcol) + 1),
rows from ymax down to ymin. -/
noncomputable def tileGrid (zoom : ℤ) (xmin ymin xmax ymax : ℝ) : List (ℤ × ℤ) :=
  (pyRange (pyInt (rowAt zoom ymax)) (pyInt (rowAt zoom ymin) + 1)).product
    (pyRange (pyInt (colAt zoom xmin)) (pyInt (colAt zoom xmax) + 1))

/-- The slippy-map tile (row, col) covers the Mercator point (x, y): the
fractional column falls in [col, col + 1) and the fractional row in
[row, row + 1). -/
noncomputable def tileContains (zoom : ℤ) (rc : ℤ × ℤ) (x y : ℝ) : Prop :=
  (rc.2 : ℝ) ≤ colAt zoom x ∧ colAt zoom x < rc.2 + 1 ∧
  (rc.1 : ℝ) ≤ rowAt zoom y ∧ rowAt zoom y < rc.1 + 1

/-- One of the six concrete GeoJSON geometry kinds, with projected plane
coordinates, as ogr builds it from the tile JSON. -/
inductive Geometry where
  | point (coords : ℝ × ℝ)
  | multiPoint (coords : List (ℝ × ℝ))
  | lineString (coords : List (ℝ × ℝ))
  | multiLineString (lines : List (List (ℝ × ℝ)))
  | polygon (rings : List (List (ℝ × ℝ)))
  | multiPolygon (polygons : List (List (List (ℝ × ℝ))))

/-- The GeoJSON type string of a geometry, what feature.geometry.type holds. -/
def typeName : Geometry → String
  | .point _ => "Point"
  | .multiPoint _ => "MultiPoint"
  | .lineString _ => "LineString"
  | .multiLineString _ => "MultiLineString"
  | .polygon _ => "Polygon"
  | .multiPolygon _ => "MultiPolygon"

/-- geom.Transform(project): apply a coordinate transform to every vertex,
keeping the geometry kind. -/
def projectGeom (f : ℝ × ℝ → ℝ × ℝ) : Geometry → Geometry
  | .point p => .point (f p)
  | .multiPoint ps => .multiPoint (ps.map f)
  | .lineString ps => .lineString (ps.map f)
  | .multiLineString ls => .multiLineString (ls.map (List.map f))
  | .polygon rs => .polygon (rs.map (List.map f))
  | .multiPolygon ps => .multiPolygon (ps.map (List.map (List.map f)))

/-- One tile feature: its geometry and the value of properties kind, none
when the properties object has no kind key. -/
structure TileFeature where
  geometry : Geometry
  kind : Option String

/-- One tile service response body: the three feature collections. -/
structure TileResponse where
  landuse : List TileFeature
  water : List TileFeature
  roads : List TileFeature

/-- The landuse kind allow-list of get_map_features. -/
def landuseKinds : List String :=
  ["cemetery", "forest", "golf_course", "grave_yard", "meadow", "park", "pitch", "wood"]

/-- The water kind allow-list of get_map_features. -/
def waterKinds : List String := ["basin", "lake", "ocean", "riverbank", "water"]

/-- The roads kind allow-list of get_map_features. -/
def roadKinds : List String := ["highway", "major_road", "minor_road", "rail", "path"]

/-- properties.get(kind) in (...): a missing kind compares unequal to every
listed string, so the test is simply false. -/
def kindMem (k : Option String) (kinds : List String) : Bool :=
  match k with
  | some s => kinds.contains s
  | none => false

/-- The landuse acceptance test: geometry type contains Polygon and the
(possibly missing) kind is on the landuse allow-list. -/
def landuseAccept (f : TileFeature) : Bool :=
  pyIn "Polygon" (typeName f.geometry) && kindMem f.kind landuseKinds

/-- The landuse classification loop: properties.get(kind) cannot raise, so a
feature with no kind is skipped like any other rejected feature. -/
def classifyLanduse (proj : ℝ × ℝ → ℝ × ℝ) : List TileFeature → List Geometry
  | [] => []
  | f :: rest =>
    if pyIn "Polygon" (typeName f.geometry) then
      if kindMem f.kind landuseKinds then
        projectGeom proj f.geometry :: classifyLanduse proj rest
      else classifyLanduse proj rest
    else classifyLanduse proj rest

/-- The water classification loop: properties[kind] raises KeyError when the
kind key is missing on a feature that passed the geometry-type test. -/
def classifyWater (proj : ℝ × ℝ → ℝ × ℝ) : List TileFeature → Except PyError (List Geometry)
  | [] => .ok []
  | f :: rest =>
    if pyIn "Polygon" (typeName f.geometry) then
      match f.kind with
      | none => .error .keyError
      | some k =>
        if waterKinds.contains k then
          (classifyWater proj rest).map (fun tl => projectGeom proj f.geometry :: tl)
        else classifyWater proj rest
    else classifyWater proj rest

/-- The roads classification loop: like water, properties[kind] raises
KeyError when the kind key is missing on a feature that passed the
geometry-type test (LineString containment). -/
def classifyRoads (proj : ℝ × ℝ → ℝ × ℝ) : List TileFeature → Except PyError (List Geometry)
  | [] => .ok []
  | f :: rest =>
    if pyIn "LineString" (typeName f.geometry) then
      match f.kind with
      | none => .error .keyError
      | some k =>
        if roadKinds.contains k then
          (classifyRoads proj rest).map (fun tl => projectGeom proj f.geometry :: tl)
        else classifyRoads proj rest
    else classifyRoads proj rest

/-- The per-tile body of the fetch loop in get_map_features: classify the
three collections of one response in source order. -/
def classifyTile (proj : ℝ × ℝ → ℝ × ℝ) (r : TileResponse) :
    Except PyError (List Geometry × List Geometry × List Geometry) :=
  let lg := classifyLanduse proj r.landuse
  match classifyWater proj r.water with
  | .error e => .error e
  | .ok wg =>
    match classifyRoads proj r.roads with
    | .error e => .error e
    | .ok rg => .ok (lg, wg, rg)

/-- The tile fetch loop of get_map_features: one synchronous GET per (row,
col) in grid order, appending each accepted feature to its layer; the first
failed fetch or classification aborts. -/
def gmfLoop (proj : ℝ × ℝ → ℝ × ℝ) (fetch : ℤ × ℤ → Except PyError TileResponse) :
    List (ℤ × ℤ) → (List Geometry × List Geometry × List Geometry) →
    Except PyError (List Geometry × List Geometry × List Geometry)
  | [], acc => .ok acc
  | rc :: rest, acc =>
    match fetch rc with
    | .error e => .error e
    | .ok resp =>
      match classifyTile proj resp with
      | .error e => .error e
      | .ok (lg, wg, rg) =>
        gmfLoop proj fetch rest (acc.1 ++ lg, acc.2.1 ++ wg, acc.2.2 ++ rg)

/-- get_map_features: choose the integer zoom by rounding the continuous
zoom, enumerate the tile grid covering the bounds, fetch and classify every
tile. The templated URL and the API key live inside the fetch collaborator. -/
noncomputable def get_map_features (proj : ℝ × ℝ → ℝ × ℝ) (xmin ymin xmax ymax : ℝ)
    (resolution : ℕ) (scale : ℝ) (fetch : ℤ × ℤ → Except PyError TileResponse) :
    Except PyError (List Geometry × List Geometry × List Geometry) :=
  let zoom := pyRound (calculate_zoom scale resolution)
  gmfLoop proj fetch (tileGrid zoom xmin ymin xmax ymax) ([], [], [])

/-- Which branch of fill_geometries a geometry takes. -/
inductive FillBranch where
  | parts
  | buffered
  | notImplemented
  deriving DecidableEq

/-- The branch selection of fill_geometries: MultiPolygon and Polygon are
drawn from their rings, a Point is buffered into a small circle, everything
else raises NotImplementedError. -/
def fillBranch : Geometry → FillBranch
  | .multiPolygon _ => .parts
  | .polygon _ => .parts
  | .point _ => .buffered
  | _ => .notImplemented

/-- geometry.Buffer(2 * muppx, 3): the ring of the 3-segment circle the
geometry library builds around a point. Its vertices are produced by the
external library and play no further role: the development proves the
branch that calls it is unreachable from classified layers. -/
def bufferRings (p : ℝ × ℝ) (radius : ℝ) : List (List (ℝ × ℝ)) := [[(p.1 + radius, p.2)]]

/-- The rings one geometry contributes to fill_geometries, or the
NotImplementedError of its else branch. -/
def fillRings (muppx : ℝ) : Geometry → Except PyError (List (List (ℝ × ℝ)))
  | .multiPolygon ps => .ok ps.flatten
  | .polygon rs => .ok rs
  | .point p => .ok (bufferRings p (2 * muppx))
  | .multiPoint _ => .error .notImplementedError
  | .lineString _ => .error .notImplementedError
  | .multiLineString _ => .error .notImplementedError

/-- fill_geometries: the rings traced and filled for a layer, in order; the
first geometry of an unhandled kind aborts with NotImplementedError. -/
def fill_geometries (geoms : List Geometry) (muppx : ℝ) :
    Except PyError (List (List (ℝ × ℝ))) :=
  match geoms with
  | [] => .ok []
  | g :: rest =>
    match fillRings muppx g with
    | .error e => .error e
    | .ok rs =>
      match fill_geometries rest muppx with
      | .error e => .error e
      | .ok acc => .ok (rs ++ acc)

/-- What one render run leaves in the PNG: the surface pixel sizes, the three
classified layers, and the projected input points drawn as markers. -/
structure RenderOutput where
  width : ℤ
  height : ℤ
  landuse : List Geometry
  water : List Geometry
  roads : List Geometry
  points : List (ℝ × ℝ)

/-- render: the pipeline in source order. The resolved and parsed source file
arrives as rows (get_local_filename and the CSV reader; a download or archive
failure is its error value); the tile service arrives as fetch. The PNG is
written only as the final step, so the output exists only on the ok path. -/
noncomputable def render (rows : Except PyError (List Row)) (width resolution : ℕ)
    (fetch : ℤ × ℤ → Except PyError TileResponse) : Except PyError RenderOutput :=
  match rows with
  | .error e => .error e
  | .ok rs =>
    let points := project_points (iterate_file_points rs)
    match calculate_bounds points with
    | .error e => .error e
    | .ok (xmin, ymin, xmax, ymax) =>
      match make_context xmin ymin xmax ymax width resolution with
      | .error e => .error e
      | .ok (hsize, vsize, scale) =>
        let muppx := (resolution : ℝ) / scale
        match get_map_features webMercator xmin ymin xmax ymax resolution scale fetch with
        | .error e => .error e
        | .ok (lg, wg, rg) =>
          match fill_geometries lg muppx with
          | .error e => .error e
          | .ok _ =>
            match fill_geometries wg muppx with
            | .error e => .error e
            | .ok _ => .ok ⟨hsize, vsize, lg, wg, rg, points⟩

lemma pyInt_of_nonneg {x : ℝ} (h : 0 ≤ x) : pyInt x = ⌊x⌋ := if_pos h

lemma mem_pyRange {a b k : ℤ} : k ∈ pyRange a b ↔ a ≤ k ∧ k < b := by
  unfold pyRange
  rw [List.mem_map]
  constructor
  · rintro ⟨i, hi, rfl⟩
    rw [List.mem_range] at hi
    omega
  · intro h
    refine ⟨(k - a).toNat, ?_, ?_⟩
    · rw [List.mem_range]
      omega
    · omega

/-- The five-row CSV of scenario B in the spec: two rows with a LON that does
not parse, one row with latitude 95, and two valid rows. -/
def scenarioRows : List Row :=
  [⟨none, some 1⟩, ⟨none, some 2⟩, ⟨some 5, some 95⟩, ⟨some 10, some 20⟩, ⟨some 30, some 40⟩]

/-- C5: iterate_file_points yields exactly the rows whose LON and LAT both
parse as numbers with lon in [-180, 180] and lat in [-90, 90]; every other
row is skipped without aborting (the function is total by type). On the
scenario B file of 5 rows with 2 unparsable LON cells and one latitude 95,
exactly the 2 valid points come out, and exactly 2 projected points feed the
bounds and markers. -/
theorem c5_point_filtering :
    (∀ rows : List Row, iterate_file_points rows
      = (rows.filter validRow).map (fun r => (r.lon.getD 0, r.lat.getD 0)))
    ∧ iterate_file_points scenarioRows = [(10, 20), (30, 40)]
    ∧ (project_points (iterate_file_points scenarioRows)).length = 2 := by
  have hgen : ∀ rows : List Row, iterate_file_points rows
      = (rows.filter validRow).map (fun r => (r.lon.getD 0, r.lat.getD 0)) := by
    intro rows
    induction rows with
    | nil => rfl
    | cons r rest ih =>
      rcases hlon : r.lon with _ | lon
      · simp [iterate_file_points, validRow, hlon, ih]
      · rcases hlat : r.lat with _ | lat
        · simp [iterate_file_points, validRow, hlon, hlat, ih]
        · by_cases hc : -180 ≤ lon ∧ lon ≤ 180 ∧ -90 ≤ lat ∧ lat ≤ 90
          · simp [iterate_file_points, validRow, hlon, hlat, hc, ih]
          · simp [iterate_file_points, validRow, hlon, hlat, hc, ih]
  have hscen : iterate_file_points scenarioRows = [(10, 20), (30, 40)] := by
    simp [scenarioRows, iterate_file_points]
    norm_num
  exact ⟨hgen, hscen, by simp [project_points, hscen]⟩

lemma make_context_ok (left bottom right top : ℝ) (width resolution : ℕ)
    (h1 : left < right) (h2 : bottom < top) :
    make_context left bottom right top width resolution =
      .ok ((resolution : ℤ) * width,
        ⌊(((resolution : ℤ) * width : ℤ) : ℝ) / ((right - left) / (top - bottom))⌋,
        (((resolution : ℤ) * width : ℤ) : ℝ) / (right - left)) := by
  have hh : top - bottom ≠ 0 := sub_ne_zero.mpr (ne_of_gt h2)
  have ha : (right - left) / (top - bottom) > 0 :=
    div_pos (sub_pos.mpr h1) (sub_pos.mpr h2)
  have hnn : (0 : ℝ) ≤ (((resolution : ℤ) * width : ℤ) : ℝ) / ((right - left) / (top - bottom)) := by
    apply div_nonneg _ (le_of_lt ha)
    positivity
  unfold make_context
  rw [if_neg hh, if_neg (ne_of_gt ha)]
  simp only [pyInt_of_nonneg hnn]

/-- C6 (amended): the output pixel sizes are exactly resolution times width
horizontally, and the height is int(hsize / aspect), the truncation toward
zero (the floor, since the value is nonnegative) of hsize divided by the
aspect, not its rounding to the nearest integer. -/
theorem c6_amended (left bottom right top : ℝ) (width resolution : ℕ)
    (h1 : left < right) (h2 : bottom < top) :
    make_context left bottom right top width resolution =
      .ok ((resolution : ℤ) * width,
        ⌊(((resolution : ℤ) * width : ℤ) : ℝ) / ((right - left) / (top - bottom))⌋,
        (((resolution : ℤ) * width : ℤ) : ℝ) / (right - left)) :=
  make_context_ok left bottom right top width resolution h1 h2

/-- C6 witness: a concrete box with positive width and height on which the
amended statement is discharged. -/
theorem c6_witness :
    (0 : ℝ) < 2672 ∧ (0 : ℝ) < 2003 ∧
    ∃ hsize vsize : ℤ, ∃ scale : ℝ,
      make_context 0 0 2672 2003 668 1 = .ok (hsize, vsize, scale) :=
  ⟨by norm_num, by norm_num, _, _, _,
    c6_amended 0 0 2672 2003 668 1 (by norm_num) (by norm_num)⟩

/-- C6 counterexample: with the bounding box (0, 0, 2672, 2003), width 668
and resolution 1, the aspect is 2672 / 2003 and hsize / aspect is exactly
500.75; the code (int truncation) makes the canvas 500 pixels high, while
the claimed round(M * W / A) is 501. -/
theorem c6_counterexample :
    make_context 0 0 2672 2003 668 1 = .ok (668, 500, 668 / 2672) ∧
    round ((668 : ℝ) / ((2672 - 0) / (2003 - 0))) = 501 ∧ (500 : ℤ) ≠ 501 := by
  refine ⟨?_, ?_, by norm_num⟩
  · rw [make_context_ok 0 0 2672 2003 668 1 (by norm_num) (by norm_num)]
    have hv : ((((1 : ℕ) : ℤ) * ((668 : ℕ) : ℤ) : ℤ) : ℝ) / (((2672 : ℝ) - 0) / (2003 - 0))
        = 2003 / 4 := by norm_num
    simp only [Except.ok.injEq, Prod.mk.injEq, hv]
    refine ⟨by norm_num, ?_, by norm_num⟩
    exact Int.floor_eq_iff.mpr (by norm_num)
  · rw [round_eq]
    have h : (668 : ℝ) / ((2672 - 0) / (2003 - 0)) + 1 / 2 = 2005 / 4 := by norm_num
    rw [h]
    exact Int.floor_eq_iff.mpr (by norm_num)

lemma sum_eq_of_const {l : List ℝ} {a : ℝ} (h : ∀ x ∈ l, x = a) :
    l.sum = l.length * a := by
  induction l with
  | nil => simp
  | cons x xs ih =>
    have hx : x = a := h x (by simp)
    have hs := ih (fun y hy => h y (by simp [hy]))
    simp only [List.sum_cons, List.length_cons, hx, hs]
    push_cast
    ring

lemma stats_const {l : List ℝ} {a : ℝ} (hne : l ≠ []) (h : ∀ x ∈ l, x = a) :
    stats l = (a, 0) := by
  have hlen : (l.length : ℝ) ≠ 0 := by
    simp only [ne_eq, Nat.cast_eq_zero, List.length_eq_zero]
    exact hne
  have hmean : l.sum / l.length = a := by
    rw [sum_eq_of_const h, mul_comm, mul_div_assoc, div_self hlen, mul_one]
  have hdev : (l.map (fun val => (val - a) ^ 2)).sum = 0 := by
    have : ∀ y ∈ l.map (fun val => (val - a) ^ 2), y = 0 := by
      intro y hy
      obtain ⟨v, hv, rfl⟩ := List.mem_map.mp hy
      rw [h v hv, sub_self]
      ring
    rw [sum_eq_of_const this, mul_zero]
  simp only [stats]
  rw [hmean, hdev, zero_div, Real.sqrt_zero]

lemma pyMin_const {a : ℝ} : ∀ {l : List ℝ}, (∀ x ∈ l, x = a) → pyMin a l = a := by
  intro l
  induction l with
  | nil => intro _; rfl
  | cons x xs ih =>
    intro h
    have hx : x = a := h x (by simp)
    show (x :: xs).foldl min a = a
    rw [List.foldl_cons, hx, min_self]
    exact ih (fun y hy => h y (by simp [hy]))

lemma pyMax_const {a : ℝ} : ∀ {l : List ℝ}, (∀ x ∈ l, x = a) → pyMax a l = a := by
  intro l
  induction l with
  | nil => intro _; rfl
  | cons x xs ih =>
    intro h
    have hx : x = a := h x (by simp)
    show (x :: xs).foldl max a = a
    rw [List.foldl_cons, hx, max_self]
    exact ih (fun y hy => h y (by simp [hy]))

lemma okay_xs_const {a b : ℝ} {points : List (ℝ × ℝ)} (hne : points ≠ [])
    (hall : ∀ p ∈ points, p = (a, b)) :
    okay_xs points = points.map Prod.fst := by
  have hxs : ∀ x ∈ points.map Prod.fst, x = a := by
    intro x hx
    obtain ⟨p, hp, rfl⟩ := List.mem_map.mp hx
    rw [hall p hp]
  have hmap : points.map Prod.fst ≠ [] := by
    simp only [ne_eq, List.map_eq_nil_iff]
    exact hne
  have hs : stats (points.map Prod.fst) = (a, 0) := stats_const hmap hxs
  show (points.filter (fun p => decide ((stats (points.map Prod.fst)).1
      - 5 * (stats (points.map Prod.fst)).2 ≤ p.1 ∧ p.1 ≤ (stats (points.map Prod.fst)).1
      + 5 * (stats (points.map Prod.fst)).2))).map Prod.fst = points.map Prod.fst
  rw [hs]
  have hfil : points.filter
      (fun p => decide ((a, (0:ℝ)).1 - 5 * (a, (0:ℝ)).2 ≤ p.1 ∧ p.1 ≤ (a, (0:ℝ)).1 + 5 * (a, (0:ℝ)).2)) = points := by
    apply List.filter_eq_self.mpr
    intro p hp
    apply decide_eq_true
    have hp1 : p.1 = a := by rw [hall p hp]
    constructor <;> simp [hp1]
  rw [hfil]

lemma okay_ys_const {a b : ℝ} {points : List (ℝ × ℝ)} (hne : points ≠ [])
    (hall : ∀ p ∈ points, p = (a, b)) :
    okay_ys points = points.map Prod.snd := by
  have hys : ∀ y ∈ points.map Prod.snd, y = b := by
    intro y hy
    obtain ⟨p, hp, rfl⟩ := List.mem_map.mp hy
    rw [hall p hp]
  have hmap : points.map Prod.snd ≠ [] := by
    simp only [ne_eq, List.map_eq_nil_iff]
    exact hne
  have hs : stats (points.map Prod.snd) = (b, 0) := stats_const hmap hys
  show (points.filter (fun p => decide ((stats (points.map Prod.snd)).1
      - 3 * (stats (points.map Prod.snd)).2 ≤ p.2 ∧ p.2 ≤ (stats (points.map Prod.snd)).1
      + 3 * (stats (points.map Prod.snd)).2))).map Prod.snd = points.map Prod.snd
  rw [hs]
  have hfil : points.filter
      (fun p => decide ((b, (0:ℝ)).1 - 3 * (b, (0:ℝ)).2 ≤ p.2 ∧ p.2 ≤ (b, (0:ℝ)).1 + 3 * (b, (0:ℝ)).2)) = points := by
    apply List.filter_eq_self.mpr
    intro p hp
    apply decide_eq_true
    have hp2 : p.2 = b := by rw [hall p hp]
    constructor <;> simp [hp2]
  rw [hfil]

lemma calculate_bounds_const (a b : ℝ) (points : List (ℝ × ℝ)) (hne : points ≠ [])
    (hall : ∀ p ∈ points, p = (a, b)) :
    calculate_bounds points = .ok (a, b, a, b) := by
  obtain ⟨q, rest, rfl⟩ := List.exists_cons_of_ne_nil hne
  have hq : q = (a, b) := hall q (by simp)
  have hrest : ∀ x ∈ rest.map Prod.fst, x = a := by
    intro x hx
    obtain ⟨p, hp, rfl⟩ := List.mem_map.mp hx
    rw [hall p (by simp [hp])]
  have hrest2 : ∀ y ∈ rest.map Prod.snd, y = b := by
    intro y hy
    obtain ⟨p, hp, rfl⟩ := List.mem_map.mp hy
    rw [hall p (by simp [hp])]
  have hx : okay_xs (q :: rest) = a :: rest.map Prod.fst := by
    rw [okay_xs_const hne hall, List.map_cons, hq]
  have hy : okay_ys (q :: rest) = b :: rest.map Prod.snd := by
    rw [okay_ys_const hne hall, List.map_cons, hq]
  unfold calculate_bounds
  rw [if_neg (by simp), hx, hy]
  simp only [pyMin_const hrest, pyMax_const hrest, pyMin_const hrest2, pyMax_const hrest2]
  norm_num

lemma exists_list_min : ∀ (l : List ℝ), l ≠ [] → ∃ m ∈ l, ∀ x ∈ l, m ≤ x := by
  intro l
  induction l with
  | nil => intro h; exact absurd rfl h
  | cons x xs ih =>
    intro _
    cases xs with
    | nil => exact ⟨x, by simp, by simp⟩
    | cons y ys =>
      obtain ⟨m, hm, hle⟩ := ih (by simp)
      by_cases hxm : x ≤ m
      · refine ⟨x, by simp, ?_⟩
        intro z hz
        rcases List.mem_cons.mp hz with rfl | hz
        · exact le_refl z
        · exact le_trans hxm (hle z hz)
      · refine ⟨m, List.mem_cons_of_mem x hm, ?_⟩
        intro z hz
        rcases List.mem_cons.mp hz with rfl | hz
        · exact le_of_not_le hxm
        · exact hle z hz

lemma mul_length_le_sum {l : List ℝ} {c : ℝ} (h : ∀ x ∈ l, c ≤ x) :
    c * l.length ≤ l.sum := by
  induction l with
  | nil => simp
  | cons x xs ih =>
    have hx : c ≤ x := h x (by simp)
    have hs := ih (fun y hy => h y (by simp [hy]))
    simp only [List.sum_cons, List.length_cons]
    push_cast
    linarith

lemma exists_le_mean (l : List ℝ) (h : l ≠ []) : ∃ v ∈ l, v ≤ l.sum / l.length := by
  obtain ⟨m, hm, hle⟩ := exists_list_min l h
  refine ⟨m, hm, ?_⟩
  have hpos : (0 : ℝ) < l.length := by
    have : l.length ≠ 0 := by
      simp only [ne_eq, List.length_eq_zero]
      exact h
    positivity
  rw [le_div_iff₀ hpos]
  exact mul_length_le_sum hle

lemma exists_within (values : List ℝ) (h : values ≠ []) :
    ∃ v ∈ values, (stats values).1 - (stats values).2 ≤ v ∧ v ≤ (stats values).1 + (stats values).2 := by
  set mean := values.sum / values.length with hmean
  have hdne : values.map (fun val => (val - mean) ^ 2) ≠ [] := by
    simp only [ne_eq, List.map_eq_nil_iff]
    exact h
  obtain ⟨d, hd, hdle⟩ := exists_le_mean (values.map (fun val => (val - mean) ^ 2)) hdne
  obtain ⟨v, hv, rfl⟩ := List.mem_map.mp hd
  refine ⟨v, hv, ?_⟩
  have hs1 : (stats values).1 = mean := rfl
  have hs2 : (stats values).2
      = Real.sqrt ((values.map (fun val => (val - mean) ^ 2)).sum / values.length) := rfl
  have habs : |v - mean| ≤ (stats values).2 := by
    rw [hs2, ← Real.sqrt_sq_eq_abs]
    apply Real.sqrt_le_sqrt
    rw [List.length_map] at hdle
    exact hdle
  rw [hs1]
  have := abs_le.mp habs
  constructor <;> linarith [this.1, this.2]

lemma stats_snd_nonneg (values : List ℝ) : 0 ≤ (stats values).2 := Real.sqrt_nonneg _

lemma okay_xs_ne_nil {points : List (ℝ × ℝ)} (h : points ≠ []) : okay_xs points ≠ [] := by
  have hmap : points.map Prod.fst ≠ [] := by
    simp only [ne_eq, List.map_eq_nil_iff]
    exact h
  obtain ⟨v, hv, h1, h2⟩ := exists_within (points.map Prod.fst) hmap
  obtain ⟨p, hp, rfl⟩ := List.mem_map.mp hv
  have hsd := stats_snd_nonneg (points.map Prod.fst)
  have hmem : p.1 ∈ okay_xs points := by
    show p.1 ∈ (points.filter (fun q => decide ((stats (points.map Prod.fst)).1
      - 5 * (stats (points.map Prod.fst)).2 ≤ q.1 ∧ q.1 ≤ (stats (points.map Prod.fst)).1
      + 5 * (stats (points.map Prod.fst)).2))).map Prod.fst
    apply List.mem_map.mpr
    refine ⟨p, List.mem_filter.mpr ⟨hp, decide_eq_true ⟨by linarith, by linarith⟩⟩, rfl⟩
  exact List.ne_nil_of_mem hmem

lemma okay_ys_ne_nil {points : List (ℝ × ℝ)} (h : points ≠ []) : okay_ys points ≠ [] := by
  have hmap : points.map Prod.snd ≠ [] := by
    simp only [ne_eq, List.map_eq_nil_iff]
    exact h
  obtain ⟨v, hv, h1, h2⟩ := exists_within (points.map Prod.snd) hmap
  obtain ⟨p, hp, rfl⟩ := List.mem_map.mp hv
  have hsd := stats_snd_nonneg (points.map Prod.snd)
  have hmem : p.2 ∈ okay_ys points := by
    show p.2 ∈ (points.filter (fun q => decide ((stats (points.map Prod.snd)).1
      - 3 * (stats (points.map Prod.snd)).2 ≤ q.2 ∧ q.2 ≤ (stats (points.map Prod.snd)).1
      + 3 * (stats (points.map Prod.snd)).2))).map Prod.snd
    apply List.mem_map.mpr
    refine ⟨p, List.mem_filter.mpr ⟨hp, decide_eq_true ⟨by linarith, by linarith⟩⟩, rfl⟩
  exact List.ne_nil_of_mem hmem

/-- C8: for every non-empty input list the per-axis filtered lists okay_xs
and okay_ys of calculate_bounds are non-empty (some value always lies within
one standard deviation of the mean, and 5 respectively 3 standard deviations
only widen that band), so the min and max calls never see an empty list and
calculate_bounds always returns a box. -/
theorem c8_filtered_nonempty (points : List (ℝ × ℝ)) (h : points ≠ []) :
    okay_xs points ≠ [] ∧ okay_ys points ≠ [] ∧
    ∃ box, calculate_bounds points = .ok box := by
  refine ⟨okay_xs_ne_nil h, okay_ys_ne_nil h, ?_⟩
  obtain ⟨x, xs, hx⟩ := List.exists_cons_of_ne_nil (okay_xs_ne_nil h)
  obtain ⟨y, ys, hy⟩ := List.exists_cons_of_ne_nil (okay_ys_ne_nil h)
  apply Exists.intro
  unfold calculate_bounds
  rw [if_neg (by simp [List.isEmpty_iff, h]), hx, hy]

/-- C8 witness: the singleton point list. -/
theorem c8_witness :
    ([((0 : ℝ), (0 : ℝ))] : List (ℝ × ℝ)) ≠ [] ∧
    okay_xs [((0 : ℝ), (0 : ℝ))] ≠ [] ∧ okay_ys [((0 : ℝ), (0 : ℝ))] ≠ [] ∧
    ∃ box, calculate_bounds [((0 : ℝ), (0 : ℝ))] = .ok box := by
  have h := c8_filtered_nonempty [((0 : ℝ), (0 : ℝ))] (by simp)
  exact ⟨by simp, h.1, h.2.1, h.2.2⟩

lemma filter_map_fst (p : ℝ → Bool) (l : List (ℝ × ℝ)) :
    (l.filter (fun q => p q.1)).map Prod.fst = (l.map Prod.fst).filter p := by
  induction l with
  | nil => rfl
  | cons x xs ih =>
    cases hp : p x.1 <;> simp [List.filter_cons, hp, ih]

lemma filter_map_snd (p : ℝ → Bool) (l : List (ℝ × ℝ)) :
    (l.filter (fun q => p q.2)).map Prod.snd = (l.map Prod.snd).filter p := by
  induction l with
  | nil => rfl
  | cons x xs ih =>
    cases hp : p x.2 <;> simp [List.filter_cons, hp, ih]

/-- C2: on every non-empty point list, calculate_bounds returns exactly the
box the spec describes: per-axis mean and population standard deviation,
x values kept within 5 and y values within 3 standard deviations of the mean
(each axis independently), per-axis min and max of the survivors, then each
of the four sides widened by exactly 2 percent of the width or height. -/
theorem c2_bounds_match_spec (points : List (ℝ × ℝ)) (h : points ≠ []) :
    calculate_bounds points = .ok (spec_box points) := by
  obtain ⟨x, xs, hx⟩ := List.exists_cons_of_ne_nil (okay_xs_ne_nil h)
  obtain ⟨y, ys, hy⟩ := List.exists_cons_of_ne_nil (okay_ys_ne_nil h)
  have hkx : (points.map Prod.fst).filter
      (fun v => decide ((stats (points.map Prod.fst)).1
        - 5 * (stats (points.map Prod.fst)).2 ≤ v ∧ v ≤ (stats (points.map Prod.fst)).1
        + 5 * (stats (points.map Prod.fst)).2)) = x :: xs := by
    rw [← filter_map_fst]
    exact hx
  have hky : (points.map Prod.snd).filter
      (fun v => decide ((stats (points.map Prod.snd)).1
        - 3 * (stats (points.map Prod.snd)).2 ≤ v ∧ v ≤ (stats (points.map Prod.snd)).1
        + 3 * (stats (points.map Prod.snd)).2)) = y :: ys := by
    rw [← filter_map_snd]
    exact hy
  have hspec : spec_box points =
      (pyMin x xs - (2 / 100) * (pyMax x xs - pyMin x xs),
       pyMin y ys - (2 / 100) * (pyMax y ys - pyMin y ys),
       pyMax x xs + (2 / 100) * (pyMax x xs - pyMin x xs),
       pyMax y ys + (2 / 100) * (pyMax y ys - pyMin y ys)) := by
    simp only [spec_box]
    rw [hkx, hky]
    simp only [listMin, listMax]
  rw [hspec]
  unfold calculate_bounds
  rw [if_neg (by simp [List.isEmpty_iff, h]), hx, hy]
  simp only [Except.ok.injEq, Prod.mk.injEq]
  refine ⟨by ring, by ring, by ring, by ring⟩

/-- C2 witness: the singleton point list. -/
theorem c2_witness :
    ([((0 : ℝ), (0 : ℝ))] : List (ℝ × ℝ)) ≠ [] ∧
    calculate_bounds [((0 : ℝ), (0 : ℝ))] = .ok (spec_box [((0 : ℝ), (0 : ℝ))]) :=
  ⟨by simp, c2_bounds_match_spec [((0 : ℝ), (0 : ℝ))] (by simp)⟩

/-- C1 counterexample: two identical points have zero variance on both axes,
and calculate_bounds does not fail: it returns the box (1, 2, 1, 2), whose
width and height are zero, so the BoundingBox invariant xmax strictly above
xmin is violated rather than a DegenerateBounds failure being raised. -/
theorem c1_counterexample :
    calculate_bounds [((1 : ℝ), (2 : ℝ)), ((1 : ℝ), (2 : ℝ))] = .ok (1, 2, 1, 2) ∧
    ¬ ((1 : ℝ) < 1) := by
  constructor
  · apply calculate_bounds_const
    · simp
    · intro p hp
      simp only [List.mem_cons, List.not_mem_nil, or_false] at hp
      rcases hp with rfl | rfl <;> rfl
  · norm_num

/-- C1 (amended): on a point set in which every point is the same point
(a, b), calculate_bounds raises nothing and returns the degenerate zero-size
box (a, b, a, b), with xmax = xmin and ymax = ymin; the division by zero the
spec wants avoided then happens downstream, in the aspect computation of
make_context. -/
theorem c1_amended (a b : ℝ) (points : List (ℝ × ℝ)) (hne : points ≠ [])
    (hall : ∀ p ∈ points, p = (a, b)) :
    calculate_bounds points = .ok (a, b, a, b) :=
  calculate_bounds_const a b points hne hall

/-- C1 witness: the amended statement at the repeated point (1, 2). -/
theorem c1_witness :
    (([((1 : ℝ), (2 : ℝ))] : List (ℝ × ℝ)) ≠ [] ∧
      (∀ p ∈ ([((1 : ℝ), (2 : ℝ))] : List (ℝ × ℝ)), p = (1, 2))) ∧
    calculate_bounds [((1 : ℝ), (2 : ℝ))] = .ok (1, 2, 1, 2) :=
  ⟨⟨by simp, by simp⟩, c1_amended 1 2 [((1 : ℝ), (2 : ℝ))] (by simp) (by simp)⟩

lemma EARTH_DIAMETER_pos : 0 < EARTH_DIAMETER := by
  unfold EARTH_DIAMETER
  positivity

lemma colAt_mono (zoom : ℤ) {a b : ℝ} (h : a ≤ b) : colAt zoom a ≤ colAt zoom b := by
  unfold colAt
  have hD := EARTH_DIAMETER_pos
  have h2 : (0 : ℝ) ≤ (2 : ℝ) ^ zoom := le_of_lt (zpow_pos two_pos _)
  gcongr

lemma rowAt_anti (zoom : ℤ) {a b : ℝ} (h : a ≤ b) : rowAt zoom b ≤ rowAt zoom a := by
  unfold rowAt
  have hD := EARTH_DIAMETER_pos
  have h2 : (0 : ℝ) ≤ (2 : ℝ) ^ zoom := le_of_lt (zpow_pos two_pos _)
  gcongr

/-- C4: at the chosen integer zoom the tile set of get_map_features is
exactly the cartesian product of the inclusive truncated index ranges, and
when the scaled bounding box lies in the nonnegative index quadrant (the
in-range situation the claim describes) that set covers the whole box: for
every point of the box, the slippy-map tile holding it is returned, so a
point exactly on a tile boundary is covered by at least one returned tile. -/
theorem c4_tile_grid_coverage (zoom : ℤ) (xmin ymin xmax ymax x y : ℝ)
    (hx1 : xmin ≤ x) (hx2 : x ≤ xmax) (hy1 : ymin ≤ y) (hy2 : y ≤ ymax)
    (hc : 0 ≤ colAt zoom xmin) (hr : 0 ≤ rowAt zoom ymax) :
    (∀ r c : ℤ, ((r, c) ∈ tileGrid zoom xmin ymin xmax ymax ↔
      (pyInt (rowAt zoom ymax) ≤ r ∧ r ≤ pyInt (rowAt zoom ymin) ∧
       pyInt (colAt zoom xmin) ≤ c ∧ c ≤ pyInt (colAt zoom xmax))))
    ∧ ∃ rc ∈ tileGrid zoom xmin ymin xmax ymax, tileContains zoom rc x y := by
  constructor
  · intro r c
    unfold tileGrid
    rw [List.pair_mem_product, mem_pyRange, mem_pyRange]
    omega
  · have hcx : colAt zoom xmin ≤ colAt zoom x := colAt_mono zoom hx1
    have hcx2 : colAt zoom x ≤ colAt zoom xmax := colAt_mono zoom hx2
    have hry : rowAt zoom ymax ≤ rowAt zoom y := rowAt_anti zoom hy2
    have hry2 : rowAt zoom y ≤ rowAt zoom ymin := rowAt_anti zoom hy1
    refine ⟨(⌊rowAt zoom y⌋, ⌊colAt zoom x⌋), ?_, ?_⟩
    · unfold tileGrid
      rw [List.pair_mem_product, mem_pyRange, mem_pyRange]
      rw [pyInt_of_nonneg hr, pyInt_of_nonneg (le_trans hr (le_trans hry hry2)),
        pyInt_of_nonneg hc, pyInt_of_nonneg (le_trans hc (le_trans hcx hcx2))]
      have h1 := Int.floor_le_floor hry
      have h2 := Int.floor_le_floor hry2
      have h3 := Int.floor_le_floor hcx
      have h4 := Int.floor_le_floor hcx2
      omega
    · exact ⟨Int.floor_le _, Int.lt_floor_add_one _, Int.floor_le _, Int.lt_floor_add_one _⟩

/-- C4 witness: at zoom 0 a box collapsed onto the west and north edge of the
Mercator square, whose corner sits exactly on a tile boundary. -/
theorem c4_witness :
    (0 : ℝ) ≤ colAt 0 (-(EARTH_DIAMETER / 2)) ∧ (0 : ℝ) ≤ rowAt 0 (EARTH_DIAMETER / 2) ∧
    ∃ rc ∈ tileGrid 0 (-(EARTH_DIAMETER / 2)) (EARTH_DIAMETER / 2)
        (-(EARTH_DIAMETER / 2)) (EARTH_DIAMETER / 2),
      tileContains 0 rc (-(EARTH_DIAMETER / 2)) (EARTH_DIAMETER / 2) := by
  have hc : colAt 0 (-(EARTH_DIAMETER / 2)) = 0 := by
    unfold colAt
    rw [zpow_zero, one_mul, neg_add_cancel]
    exact zero_div _
  have hr : rowAt 0 (EARTH_DIAMETER / 2) = 0 := by
    unfold rowAt
    rw [zpow_zero, one_mul, sub_self]
    exact zero_div _
  exact ⟨le_of_eq hc.symm, le_of_eq hr.symm,
    (c4_tile_grid_coverage 0 (-(EARTH_DIAMETER / 2)) (EARTH_DIAMETER / 2)
      (-(EARTH_DIAMETER / 2)) (EARTH_DIAMETER / 2) (-(EARTH_DIAMETER / 2)) (EARTH_DIAMETER / 2)
      le_rfl le_rfl le_rfl le_rfl (le_of_eq hc.symm) (le_of_eq hr.symm)).2⟩

lemma kindMem_iff {k : Option String} {kinds : List String} :
    kindMem k kinds = true ↔ ∃ s, k = some s ∧ s ∈ kinds := by
  cases k with
  | none => simp [kindMem]
  | some s =>
    simp only [kindMem, List.elem_iff]
    constructor
    · intro h
      exact ⟨s, rfl, h⟩
    · rintro ⟨t, ht, hmem⟩
      cases ht
      exact hmem

lemma classifyLanduse_eq (proj : ℝ × ℝ → ℝ × ℝ) (feats : List TileFeature) :
    classifyLanduse proj feats
      = (feats.filter landuseAccept).map (fun f => projectGeom proj f.geometry) := by
  induction feats with
  | nil => rfl
  | cons f rest ih =>
    cases h1 : pyIn "Polygon" (typeName f.geometry) <;>
      cases h2 : kindMem f.kind landuseKinds <;>
        simp [classifyLanduse, landuseAccept, List.filter_cons, h1, h2, ih]

lemma classifyWater_ok_mem {proj : ℝ × ℝ → ℝ × ℝ} :
    ∀ {feats : List TileFeature} {gs : List Geometry},
    classifyWater proj feats = .ok gs → ∀ g ∈ gs,
      ∃ f ∈ feats, pyIn "Polygon" (typeName f.geometry) = true ∧
        (∃ k, f.kind = some k ∧ k ∈ waterKinds) ∧ g = projectGeom proj f.geometry := by
  intro feats
  induction feats with
  | nil =>
    intro gs h g hg
    simp only [classifyWater, Except.ok.injEq] at h
    rw [← h] at hg
    cases hg
  | cons f rest ih =>
    intro gs h g hg
    rw [classifyWater] at h
    cases h1 : pyIn "Polygon" (typeName f.geometry) with
    | false =>
      rw [h1] at h
      simp only [Bool.false_eq_true, if_false] at h
      obtain ⟨f0, hf0, hrest⟩ := ih h g hg
      exact ⟨f0, by simp [hf0], hrest⟩
    | true =>
      rw [h1] at h
      simp only [if_true] at h
      cases hk : f.kind with
      | none => simp only [hk] at h; cases h
      | some k =>
        simp only [hk] at h
        cases hc : waterKinds.contains k with
        | false =>
          simp only [hc, Bool.false_eq_true, if_false] at h
          obtain ⟨f0, hf0, hrest⟩ := ih h g hg
          exact ⟨f0, by simp [hf0], hrest⟩
        | true =>
          simp only [hc, if_true] at h
          cases hw : classifyWater proj rest with
          | error e => rw [hw] at h; cases h
          | ok tl =>
            rw [hw] at h
            simp only [Except.map, Except.ok.injEq] at h
            rw [← h] at hg
            rcases List.mem_cons.mp hg with rfl | hg2
            · exact ⟨f, by simp, h1, ⟨k, hk, List.elem_iff.mp hc⟩, rfl⟩
            · obtain ⟨f0, hf0, hrest⟩ := ih hw g hg2
              exact ⟨f0, by simp [hf0], hrest⟩

lemma classifyRoads_ok_mem {proj : ℝ × ℝ → ℝ × ℝ} :
    ∀ {feats : List TileFeature} {gs : List Geometry},
    classifyRoads proj feats = .ok gs → ∀ g ∈ gs,
      ∃ f ∈ feats, pyIn "LineString" (typeName f.geometry) = true ∧
        (∃ k, f.kind = some k ∧ k ∈ roadKinds) ∧ g = projectGeom proj f.geometry := by
  intro feats
  induction feats with
  | nil =>
    intro gs h g hg
    simp only [classifyRoads, Except.ok.injEq] at h
    rw [← h] at hg
    cases hg
  | cons f rest ih =>
    intro gs h g hg
    rw [classifyRoads] at h
    cases h1 : pyIn "LineString" (typeName f.geometry) with
    | false =>
      rw [h1] at h
      simp only [Bool.false_eq_true, if_false] at h
      obtain ⟨f0, hf0, hrest⟩ := ih h g hg
      exact ⟨f0, by simp [hf0], hrest⟩
    | true =>
      rw [h1] at h
      simp only [if_true] at h
      cases hk : f.kind with
      | none => simp only [hk] at h; cases h
      | some k =>
        simp only [hk] at h
        cases hc : roadKinds.contains k with
        | false =>
          simp only [hc, Bool.false_eq_true, if_false] at h
          obtain ⟨f0, hf0, hrest⟩ := ih h g hg
          exact ⟨f0, by simp [hf0], hrest⟩
        | true =>
          simp only [hc, if_true] at h
          cases hw : classifyRoads proj rest with
          | error e => rw [hw] at h; cases h
          | ok tl =>
            rw [hw] at h
            simp only [Except.map, Except.ok.injEq] at h
            rw [← h] at hg
            rcases List.mem_cons.mp hg with rfl | hg2
            · exact ⟨f, by simp, h1, ⟨k, hk, List.elem_iff.mp hc⟩, rfl⟩
            · obtain ⟨f0, hf0, hrest⟩ := ih hw g hg2
              exact ⟨f0, by simp [hf0], hrest⟩

lemma classifyTile_ok_inv {proj : ℝ × ℝ → ℝ × ℝ} {r : TileResponse}
    {lg wg rg : List Geometry} (h : classifyTile proj r = .ok (lg, wg, rg)) :
    lg = classifyLanduse proj r.landuse ∧ classifyWater proj r.water = .ok wg ∧
      classifyRoads proj r.roads = .ok rg := by
  rw [classifyTile] at h
  cases hw : classifyWater proj r.water with
  | error e => rw [hw] at h; cases h
  | ok wg2 =>
    rw [hw] at h
    cases hr : classifyRoads proj r.roads with
    | error e => rw [hr] at h; cases h
    | ok rg2 =>
      rw [hr] at h
      simp only [Except.ok.injEq, Prod.mk.injEq] at h
      obtain ⟨h1, h2, h3⟩ := h
      exact ⟨h1.symm, by rw [h2], by rw [h3]⟩

lemma gmfLoop_ok_sources {proj : ℝ × ℝ → ℝ × ℝ} {fetch : ℤ × ℤ → Except PyError TileResponse} :
    ∀ (tiles : List (ℤ × ℤ)) (acc res : List Geometry × List Geometry × List Geometry),
    gmfLoop proj fetch tiles acc = .ok res →
      (∀ g ∈ res.1, g ∈ acc.1 ∨ ∃ rc ∈ tiles, ∃ resp, fetch rc = .ok resp ∧
        ∃ lg wg rg, classifyTile proj resp = .ok (lg, wg, rg) ∧ g ∈ lg) ∧
      (∀ g ∈ res.2.1, g ∈ acc.2.1 ∨ ∃ rc ∈ tiles, ∃ resp, fetch rc = .ok resp ∧
        ∃ lg wg rg, classifyTile proj resp = .ok (lg, wg, rg) ∧ g ∈ wg) ∧
      (∀ g ∈ res.2.2, g ∈ acc.2.2 ∨ ∃ rc ∈ tiles, ∃ resp, fetch rc = .ok resp ∧
        ∃ lg wg rg, classifyTile proj resp = .ok (lg, wg, rg) ∧ g ∈ rg) := by
  intro tiles
  induction tiles with
  | nil =>
    intro acc res h
    simp only [gmfLoop, Except.ok.injEq] at h
    rw [← h]
    exact ⟨fun g hg => Or.inl hg, fun g hg => Or.inl hg, fun g hg => Or.inl hg⟩
  | cons rc rest ih =>
    intro acc res h
    rw [gmfLoop] at h
    cases hf : fetch rc with
    | error e => simp only [hf] at h; cases h
    | ok resp =>
      simp only [hf] at h
      cases hct : classifyTile proj resp with
      | error e => simp only [hct] at h; cases h
      | ok triple =>
        simp only [hct] at h
        obtain ⟨lg, wg, rg⟩ := triple
        obtain ⟨ha, hb, hc⟩ := ih _ res h
        refine ⟨fun g hg => ?_, fun g hg => ?_, fun g hg => ?_⟩
        · rcases ha g hg with hacc | ⟨rc2, hrc2, rest2⟩
          · rcases List.mem_append.mp hacc with hl | hl
            · exact Or.inl hl
            · exact Or.inr ⟨rc, by simp, resp, hf, lg, wg, rg, hct, hl⟩
          · exact Or.inr ⟨rc2, by simp [hrc2], rest2⟩
        · rcases hb g hg with hacc | ⟨rc2, hrc2, rest2⟩
          · rcases List.mem_append.mp hacc with hl | hl
            · exact Or.inl hl
            · exact Or.inr ⟨rc, by simp, resp, hf, lg, wg, rg, hct, hl⟩
          · exact Or.inr ⟨rc2, by simp [hrc2], rest2⟩
        · rcases hc g hg with hacc | ⟨rc2, hrc2, rest2⟩
          · rcases List.mem_append.mp hacc with hl | hl
            · exact Or.inl hl
            · exact Or.inr ⟨rc, by simp, resp, hf, lg, wg, rg, hct, hl⟩
          · exact Or.inr ⟨rc2, by simp [hrc2], rest2⟩

lemma gmf_sources {proj : ℝ × ℝ → ℝ × ℝ} {xmin ymin xmax ymax : ℝ} {resolution : ℕ}
    {scale : ℝ} {fetch : ℤ × ℤ → Except PyError TileResponse} {lg wg rg : List Geometry}
    (h : get_map_features proj xmin ymin xmax ymax resolution scale fetch = .ok (lg, wg, rg)) :
    (∀ g ∈ lg, ∃ rc resp, fetch rc = .ok resp ∧ ∃ f ∈ resp.landuse,
      pyIn "Polygon" (typeName f.geometry) = true ∧
      (∃ k, f.kind = some k ∧ k ∈ landuseKinds) ∧ g = projectGeom proj f.geometry) ∧
    (∀ g ∈ wg, ∃ rc resp, fetch rc = .ok resp ∧ ∃ f ∈ resp.water,
      pyIn "Polygon" (typeName f.geometry) = true ∧
      (∃ k, f.kind = some k ∧ k ∈ waterKinds) ∧ g = projectGeom proj f.geometry) ∧
    (∀ g ∈ rg, ∃ rc resp, fetch rc = .ok resp ∧ ∃ f ∈ resp.roads,
      pyIn "LineString" (typeName f.geometry) = true ∧
      (∃ k, f.kind = some k ∧ k ∈ roadKinds) ∧ g = projectGeom proj f.geometry) := by
  rw [get_map_features] at h
  obtain ⟨ha, hb, hc⟩ := gmfLoop_ok_sources _ _ _ h
  refine ⟨fun g hg => ?_, fun g hg => ?_, fun g hg => ?_⟩
  · rcases ha g hg with hacc | ⟨rc, _, resp, hfr, lg2, wg2, rg2, hct, hmem⟩
    · cases hacc
    · obtain ⟨heq, _, _⟩ := classifyTile_ok_inv hct
      rw [heq, classifyLanduse_eq] at hmem
      obtain ⟨f, hf, rfl⟩ := List.mem_map.mp hmem
      obtain ⟨hfin, hacc2⟩ := List.mem_filter.mp hf
      unfold landuseAccept at hacc2
      obtain ⟨h1, h2⟩ := Bool.and_eq_true_iff.mp hacc2
      exact ⟨rc, resp, hfr, f, hfin, h1, kindMem_iff.mp h2, rfl⟩
  · rcases hb g hg with hacc | ⟨rc, _, resp, hfr, lg2, wg2, rg2, hct, hmem⟩
    · cases hacc
    · obtain ⟨_, hw, _⟩ := classifyTile_ok_inv hct
      obtain ⟨f, hf, h1, h2, h3⟩ := classifyWater_ok_mem hw g hmem
      exact ⟨rc, resp, hfr, f, hf, h1, h2, h3⟩
  · rcases hc g hg with hacc | ⟨rc, _, resp, hfr, lg2, wg2, rg2, hct, hmem⟩
    · cases hacc
    · obtain ⟨_, _, hr⟩ := classifyTile_ok_inv hct
      obtain ⟨f, hf, h1, h2, h3⟩ := classifyRoads_ok_mem hr g hmem
      exact ⟨rc, resp, hfr, f, hf, h1, h2, h3⟩

/-- C3: whenever get_map_features succeeds, every geometry in each returned
layer comes from a fetched feature of the matching collection that passed
BOTH that layer's geometry-type containment test (Polygon for landuse and
water, LineString for roads) and that layer's kind allow-list test, and was
then projected; in particular no layer holds a feature whose kind is outside
its allow-list. -/
theorem c3_layer_membership (proj : ℝ × ℝ → ℝ × ℝ) (xmin ymin xmax ymax : ℝ)
    (resolution : ℕ) (scale : ℝ) (fetch : ℤ × ℤ → Except PyError TileResponse)
    (lg wg rg : List Geometry)
    (h : get_map_features proj xmin ymin xmax ymax resolution scale fetch = .ok (lg, wg, rg)) :
    (∀ g ∈ lg, ∃ rc resp, fetch rc = .ok resp ∧ ∃ f ∈ resp.landuse,
      pyIn "Polygon" (typeName f.geometry) = true ∧
      (∃ k, f.kind = some k ∧ k ∈ landuseKinds) ∧ g = projectGeom proj f.geometry) ∧
    (∀ g ∈ wg, ∃ rc resp, fetch rc = .ok resp ∧ ∃ f ∈ resp.water,
      pyIn "Polygon" (typeName f.geometry) = true ∧
      (∃ k, f.kind = some k ∧ k ∈ waterKinds) ∧ g = projectGeom proj f.geometry) ∧
    (∀ g ∈ rg, ∃ rc resp, fetch rc = .ok resp ∧ ∃ f ∈ resp.roads,
      pyIn "LineString" (typeName f.geometry) = true ∧
      (∃ k, f.kind = some k ∧ k ∈ roadKinds) ∧ g = projectGeom proj f.geometry) :=
  gmf_sources h

lemma classifyWater_error_of_missing {proj : ℝ × ℝ → ℝ × ℝ} :
    ∀ {feats : List TileFeature},
    (∃ f ∈ feats, pyIn "Polygon" (typeName f.geometry) = true ∧ f.kind = none) →
    classifyWater proj feats = .error .keyError := by
  intro feats
  induction feats with
  | nil => rintro ⟨f, hf, _⟩; cases hf
  | cons f rest ih =>
    rintro ⟨f0, hf0, hp0, hk0⟩
    rcases List.mem_cons.mp hf0 with rfl | hf0r
    · rw [classifyWater]
      simp only [hp0, if_true, hk0]
    · have hrec := ih ⟨f0, hf0r, hp0, hk0⟩
      rw [classifyWater]
      cases hp : pyIn "Polygon" (typeName f.geometry) with
      | false => simp only [Bool.false_eq_true, if_false]; exact hrec
      | true =>
        simp only [if_true]
        cases hk : f.kind with
        | none => rfl
        | some k =>
          cases hc : waterKinds.contains k with
          | false => simp only [hc, Bool.false_eq_true, if_false]; exact hrec
          | true => simp only [hc, if_true]; rw [hrec]; rfl

lemma classifyWater_ok_of_kinds {proj : ℝ × ℝ → ℝ × ℝ} :
    ∀ {feats : List TileFeature},
    (∀ f ∈ feats, pyIn "Polygon" (typeName f.geometry) = true → f.kind ≠ none) →
    ∃ l, classifyWater proj feats = .ok l := by
  intro feats
  induction feats with
  | nil => intro _; exact ⟨[], rfl⟩
  | cons f rest ih =>
    intro h
    obtain ⟨l, hl⟩ := ih (fun g hg hp => h g (by simp [hg]) hp)
    rw [classifyWater]
    cases hp : pyIn "Polygon" (typeName f.geometry) with
    | false =>
      refine ⟨l, ?_⟩
      simp only [Bool.false_eq_true, if_false]
      exact hl
    | true =>
      simp only [if_true]
      cases hk : f.kind with
      | none => exact absurd hk (h f (by simp) hp)
      | some k =>
        cases hc : waterKinds.contains k with
        | false =>
          refine ⟨l, ?_⟩
          simp only [hc, Bool.false_eq_true, if_false]
          exact hl
        | true =>
          refine ⟨projectGeom proj f.geometry :: l, ?_⟩
          simp only [hc, if_true, hl]
          rfl

lemma classifyRoads_error_of_missing {proj : ℝ × ℝ → ℝ × ℝ} :
    ∀ {feats : List TileFeature},
    (∃ f ∈ feats, pyIn "LineString" (typeName f.geometry) = true ∧ f.kind = none) →
    classifyRoads proj feats = .error .keyError := by
  intro feats
  induction feats with
  | nil => rintro ⟨f, hf, _⟩; cases hf
  | cons f rest ih =>
    rintro ⟨f0, hf0, hp0, hk0⟩
    rcases List.mem_cons.mp hf0 with rfl | hf0r
    · rw [classifyRoads]
      simp only [hp0, if_true, hk0]
    · have hrec := ih ⟨f0, hf0r, hp0, hk0⟩
      rw [classifyRoads]
      cases hp : pyIn "LineString" (typeName f.geometry) with
      | false => simp only [Bool.false_eq_true, if_false]; exact hrec
      | true =>
        simp only [if_true]
        cases hk : f.kind with
        | none => rfl
        | some k =>
          cases hc : roadKinds.contains k with
          | false => simp only [hc, Bool.false_eq_true, if_false]; exact hrec
          | true => simp only [hc, if_true]; rw [hrec]; rfl

lemma gmfLoop_error_of_bad {proj : ℝ × ℝ → ℝ × ℝ} {fetch : ℤ × ℤ → Except PyError TileResponse}
    {rc : ℤ × ℤ} {r : TileResponse} {e : PyError}
    (hf : fetch rc = .ok r) (hct : classifyTile proj r = .error e) :
    ∀ (tiles : List (ℤ × ℤ)) (acc : List Geometry × List Geometry × List Geometry),
    rc ∈ tiles → ∃ e2, gmfLoop proj fetch tiles acc = .error e2 := by
  intro tiles
  induction tiles with
  | nil => intro acc h; cases h
  | cons t rest ih =>
    intro acc hmem
    rw [gmfLoop]
    rcases List.mem_cons.mp hmem with rfl | hr
    · simp only [hf, hct]
      exact ⟨e, rfl⟩
    · cases hft : fetch t with
      | error e2 => exact ⟨e2, rfl⟩
      | ok resp =>
        simp only
        cases hct2 : classifyTile proj resp with
        | error e2 => exact ⟨e2, rfl⟩
        | ok triple =>
          obtain ⟨lg, wg, rg⟩ := triple
          simp only [hct2]
          exact ih _ hr

/-- C9: missing-kind handling is asymmetric. A water or roads feature that
passes its geometry-type test but whose properties hold no kind key makes
the tile classification raise KeyError (and with it the whole
get_map_features call, hence the render); a landuse feature with no kind is
silently excluded, since classifyLanduse filters with a total acceptance
test that is false on a missing kind. -/
theorem c9_missing_kind_asymmetry :
    (∀ (proj : ℝ × ℝ → ℝ × ℝ) (r : TileResponse) (f : TileFeature), f ∈ r.water →
      pyIn "Polygon" (typeName f.geometry) = true → f.kind = none →
      classifyTile proj r = .error .keyError)
    ∧ (∀ (proj : ℝ × ℝ → ℝ × ℝ) (r : TileResponse) (f : TileFeature),
      (∀ g ∈ r.water, pyIn "Polygon" (typeName g.geometry) = true → g.kind ≠ none) →
      f ∈ r.roads → pyIn "LineString" (typeName f.geometry) = true → f.kind = none →
      classifyTile proj r = .error .keyError)
    ∧ (∀ (proj : ℝ × ℝ → ℝ × ℝ) (feats : List TileFeature), classifyLanduse proj feats
        = (feats.filter landuseAccept).map (fun f => projectGeom proj f.geometry))
    ∧ (∀ f : TileFeature, f.kind = none → landuseAccept f = false)
    ∧ (∀ (proj : ℝ × ℝ → ℝ × ℝ) (xmin ymin xmax ymax : ℝ) (resolution : ℕ) (scale : ℝ)
        (fetch : ℤ × ℤ → Except PyError TileResponse) (rc : ℤ × ℤ) (r : TileResponse)
        (f : TileFeature),
        rc ∈ tileGrid (pyRound (calculate_zoom scale resolution)) xmin ymin xmax ymax →
        fetch rc = .ok r → f ∈ r.water → pyIn "Polygon" (typeName f.geometry) = true →
        f.kind = none →
        ∃ e, get_map_features proj xmin ymin xmax ymax resolution scale fetch = .error e) := by
  refine ⟨?_, ?_, ?_, ?_, ?_⟩
  · intro proj r f hmem hp hk
    have hw : classifyWater proj r.water = .error .keyError :=
      classifyWater_error_of_missing ⟨f, hmem, hp, hk⟩
    simp only [classifyTile, hw]
  · intro proj r f hclean hmem hp hk
    obtain ⟨wg, hw⟩ : ∃ l, classifyWater proj r.water = .ok l :=
      classifyWater_ok_of_kinds hclean
    have hr : classifyRoads proj r.roads = .error .keyError :=
      classifyRoads_error_of_missing ⟨f, hmem, hp, hk⟩
    simp only [classifyTile, hw, hr]
  · intro proj feats
    exact classifyLanduse_eq proj feats
  · intro f hk
    simp [landuseAccept, kindMem, hk]
  · intro proj xmin ymin xmax ymax resolution scale fetch rc r f hgrid hf hmem hp hk
    have hw : classifyWater proj r.water = .error .keyError :=
      classifyWater_error_of_missing ⟨f, hmem, hp, hk⟩
    have hct : classifyTile proj r = .error .keyError := by
      simp only [classifyTile, hw]
    rw [get_map_features]
    exact gmfLoop_error_of_bad hf hct _ _ hgrid

lemma fillBranch_projectGeom (proj : ℝ × ℝ → ℝ × ℝ) (g : Geometry) :
    fillBranch (projectGeom proj g) = fillBranch g := by
  cases g <;> rfl

lemma fillBranch_of_polygon_type {g : Geometry}
    (h : pyIn "Polygon" (typeName g) = true) : fillBranch g = .parts := by
  cases g with
  | point p => simp only [typeName] at h; exact absurd h (by decide)
  | multiPoint ps => simp only [typeName] at h; exact absurd h (by decide)
  | lineString ps => simp only [typeName] at h; exact absurd h (by decide)
  | multiLineString ls => simp only [typeName] at h; exact absurd h (by decide)
  | polygon rs => rfl
  | multiPolygon ps => rfl

lemma fillRings_ok_of_parts {g : Geometry} (h : fillBranch g = .parts) (m : ℝ) :
    ∃ rs, fillRings m g = .ok rs := by
  cases g with
  | polygon rs => exact ⟨rs, rfl⟩
  | multiPolygon ps => exact ⟨ps.flatten, rfl⟩
  | point p => simp [fillBranch] at h
  | multiPoint ps => simp [fillBranch] at h
  | lineString ps => simp [fillBranch] at h
  | multiLineString ls => simp [fillBranch] at h

lemma fill_geometries_ok {l : List Geometry} (h : ∀ g ∈ l, fillBranch g = .parts) (m : ℝ) :
    ∃ o, fill_geometries l m = .ok o := by
  induction l with
  | nil => exact ⟨[], rfl⟩
  | cons g rest ih =>
    obtain ⟨rs, hrs⟩ := fillRings_ok_of_parts (h g (by simp)) m
    obtain ⟨o, ho⟩ := ih (fun g2 hg2 => h g2 (by simp [hg2]))
    exact ⟨rs ++ o, by simp only [fill_geometries, hrs, ho]⟩

/-- C10: the landuse and water layers produced by the classifier hold only
Polygon or MultiPolygon geometries (their type string contains Polygon), so
fill_geometries takes its ring-tracing branch everywhere: the
NotImplementedError branch and the Point-buffering branch are unreachable
from classified layers, and filling each of the two layers succeeds. -/
theorem c10_fill_branches (proj : ℝ × ℝ → ℝ × ℝ) (xmin ymin xmax ymax : ℝ)
    (resolution : ℕ) (scale : ℝ) (fetch : ℤ × ℤ → Except PyError TileResponse)
    (lg wg rg : List Geometry)
    (h : get_map_features proj xmin ymin xmax ymax resolution scale fetch = .ok (lg, wg, rg)) :
    (∀ g, g ∈ lg ∨ g ∈ wg → fillBranch g = .parts ∧ fillBranch g ≠ .buffered) ∧
    (∀ muppx : ℝ, (∃ o, fill_geometries lg muppx = .ok o) ∧
      (∃ o, fill_geometries wg muppx = .ok o)) := by
  obtain ⟨ha, hb, _⟩ := gmf_sources h
  have hl : ∀ g ∈ lg, fillBranch g = .parts := by
    intro g hg
    obtain ⟨rc, resp, hfr, f, hf, h1, _, rfl⟩ := ha g hg
    rw [fillBranch_projectGeom]
    exact fillBranch_of_polygon_type h1
  have hw : ∀ g ∈ wg, fillBranch g = .parts := by
    intro g hg
    obtain ⟨rc, resp, hfr, f, hf, h1, _, rfl⟩ := hb g hg
    rw [fillBranch_projectGeom]
    exact fillBranch_of_polygon_type h1
  refine ⟨fun g hg => ?_, fun m => ⟨fill_geometries_ok hl m, fill_geometries_ok hw m⟩⟩
  rcases hg with hg | hg
  · exact ⟨hl g hg, by rw [hl g hg]; decide⟩
  · exact ⟨hw g hg, by rw [hw g hg]; decide⟩

lemma pyInt_zero : pyInt 0 = 0 := by
  unfold pyInt
  rw [if_pos le_rfl, Int.floor_zero]

lemma pyRound_zero : pyRound 0 = 0 := by
  unfold pyRound
  rw [Int.floor_zero]
  norm_num

lemma colAt_west : colAt 0 (-(EARTH_DIAMETER / 2)) = 0 := by
  unfold colAt
  rw [zpow_zero, one_mul, neg_add_cancel]
  exact zero_div _

lemma rowAt_north : rowAt 0 (EARTH_DIAMETER / 2) = 0 := by
  unfold rowAt
  rw [zpow_zero, one_mul, sub_self]
  exact zero_div _

lemma calculate_zoom_unit : calculate_zoom (256 / EARTH_DIAMETER) 1 = 0 := by
  simp only [calculate_zoom]
  have hD : EARTH_DIAMETER ≠ 0 := ne_of_gt EARTH_DIAMETER_pos
  have h : (256 : ℝ) / EARTH_DIAMETER / (((1 : ℕ) : ℝ) * 256 / EARTH_DIAMETER) = 1 := by
    rw [Nat.cast_one, one_mul]
    exact div_self (div_ne_zero (by norm_num) hD)
  rw [h, Real.log_one, zero_div]

/-- One tile whose landuse collection holds a park polygon (accepted) and a
parking polygon (kind not on the allow-list, rejected). -/
def tileA : TileResponse :=
  ⟨[⟨.polygon [[(0, 0)]], some "park"⟩, ⟨.polygon [[(1, 1)]], some "parking"⟩], [], []⟩

/-- A tile service answering every request with tileA. -/
def fetchA : ℤ × ℤ → Except PyError TileResponse := fun _ => .ok tileA

lemma grid_unit : tileGrid 0 (-(EARTH_DIAMETER / 2)) (EARTH_DIAMETER / 2)
    (-(EARTH_DIAMETER / 2)) (EARTH_DIAMETER / 2) = [(0, 0)] := by
  unfold tileGrid
  rw [colAt_west, rowAt_north, pyInt_zero]
  decide

lemma gmf_eval : get_map_features id (-(EARTH_DIAMETER / 2)) (EARTH_DIAMETER / 2)
    (-(EARTH_DIAMETER / 2)) (EARTH_DIAMETER / 2) 1 (256 / EARTH_DIAMETER) fetchA
    = .ok ([projectGeom id (Geometry.polygon [[(0, 0)]])], [], []) := by
  rw [get_map_features, calculate_zoom_unit, pyRound_zero, grid_unit]
  rfl

/-- C3 witness: one fetched tile at zoom 0 whose landuse layer keeps exactly
the park polygon; the theorem recovers its source feature and allow-listed
kind. -/
theorem c3_witness :
    ∃ rc resp, fetchA rc = .ok resp ∧ ∃ f ∈ resp.landuse,
      pyIn "Polygon" (typeName f.geometry) = true ∧
      (∃ k, f.kind = some k ∧ k ∈ landuseKinds) ∧
      projectGeom id (Geometry.polygon [[((0 : ℝ), (0 : ℝ))]]) = projectGeom id f.geometry :=
  (c3_layer_membership id (-(EARTH_DIAMETER / 2)) (EARTH_DIAMETER / 2)
    (-(EARTH_DIAMETER / 2)) (EARTH_DIAMETER / 2) 1 (256 / EARTH_DIAMETER) fetchA
    _ _ _ gmf_eval).1 (projectGeom id (Geometry.polygon [[(0, 0)]])) (by simp)

/-- C10 witness: filling the concrete classified landuse layer succeeds. -/
theorem c10_witness :
    ∃ o, fill_geometries [projectGeom id (Geometry.polygon [[((0 : ℝ), (0 : ℝ))]])] 1 = .ok o :=
  ((c10_fill_branches id (-(EARTH_DIAMETER / 2)) (EARTH_DIAMETER / 2)
    (-(EARTH_DIAMETER / 2)) (EARTH_DIAMETER / 2) 1 (256 / EARTH_DIAMETER) fetchA
    _ _ _ gmf_eval).2 1).1

lemma gmfLoop_ok_fetches {proj : ℝ × ℝ → ℝ × ℝ} {fetch : ℤ × ℤ → Except PyError TileResponse} :
    ∀ (tiles : List (ℤ × ℤ)) (acc res : List Geometry × List Geometry × List Geometry),
    gmfLoop proj fetch tiles acc = .ok res →
    ∀ rc ∈ tiles, ∃ resp, fetch rc = .ok resp := by
  intro tiles
  induction tiles with
  | nil => intro acc res h rc hrc; cases hrc
  | cons t rest ih =>
    intro acc res h rc hrc
    rw [gmfLoop] at h
    cases hft : fetch t with
    | error e => simp only [hft] at h; cases h
    | ok resp =>
      simp only [hft] at h
      cases hct : classifyTile proj resp with
      | error e => simp only [hct] at h; cases h
      | ok triple =>
        obtain ⟨lg, wg, rg⟩ := triple
        simp only [hct] at h
        rcases List.mem_cons.mp hrc with rfl | hrc2
        · exact ⟨resp, hft⟩
        · exact ih _ _ h rc hrc2

lemma pyRange_nodup (a b : ℤ) : (pyRange a b).Nodup := by
  unfold pyRange
  apply List.Nodup.map
  · intro i j hij
    have h2 : a + (i : ℤ) = a + (j : ℤ) := hij
    omega
  · exact List.nodup_range _

lemma tileGrid_nodup (zoom : ℤ) (a b c d : ℝ) : (tileGrid zoom a b c d).Nodup := by
  unfold tileGrid
  exact List.Nodup.product (pyRange_nodup _ _) (pyRange_nodup _ _)

/-- C7: apart from the silent per-row skipping inside iterate_file_points,
a PNG comes out of render only when every stage succeeded: the source rows
resolved, the bounds, the drawing context, every tile fetch of the grid and
the whole classification, and both polygon fills; therefore a failure in any
stage yields an error value and no output (the write is the final step of
the ok path). The grid holds no duplicate, so each tile is requested exactly
once and no retry happens. -/
theorem c7_failure_aborts :
    (∀ (rows : Except PyError (List Row)) (width resolution : ℕ)
        (fetch : ℤ × ℤ → Except PyError TileResponse) (out : RenderOutput),
      render rows width resolution fetch = .ok out →
      ∃ rs xmin ymin xmax ymax hsize vsize scale lg wg rg,
        rows = .ok rs ∧
        calculate_bounds (project_points (iterate_file_points rs)) = .ok (xmin, ymin, xmax, ymax) ∧
        make_context xmin ymin xmax ymax width resolution = .ok (hsize, vsize, scale) ∧
        get_map_features webMercator xmin ymin xmax ymax resolution scale fetch
          = .ok (lg, wg, rg) ∧
        (∀ rc ∈ tileGrid (pyRound (calculate_zoom scale resolution)) xmin ymin xmax ymax,
          ∃ resp, fetch rc = .ok resp) ∧
        (∃ o1, fill_geometries lg ((resolution : ℝ) / scale) = .ok o1) ∧
        (∃ o2, fill_geometries wg ((resolution : ℝ) / scale) = .ok o2) ∧
        out = ⟨hsize, vsize, lg, wg, rg, project_points (iterate_file_points rs)⟩)
    ∧ (∀ (zoom : ℤ) (a b c d : ℝ), (tileGrid zoom a b c d).Nodup) := by
  constructor
  · intro rows width resolution fetch out h
    rcases rows with e | rs
    · simp only [render] at h
      cases h
    · simp only [render] at h
      cases hb : calculate_bounds (project_points (iterate_file_points rs)) with
      | error e => simp only [hb] at h; cases h
      | ok box =>
        obtain ⟨xmin, ymin, xmax, ymax⟩ := box
        simp only [hb] at h
        cases hmc : make_context xmin ymin xmax ymax width resolution with
        | error e => simp only [hmc] at h; cases h
        | ok ctx =>
          obtain ⟨hsize, vsize, scale⟩ := ctx
          simp only [hmc] at h
          cases hg : get_map_features webMercator xmin ymin xmax ymax resolution scale fetch with
          | error e => simp only [hg] at h; cases h
          | ok layers =>
            obtain ⟨lg, wg, rg⟩ := layers
            simp only [hg] at h
            cases hf1 : fill_geometries lg ((resolution : ℝ) / scale) with
            | error e => simp only [hf1] at h; cases h
            | ok o1 =>
              simp only [hf1] at h
              cases hf2 : fill_geometries wg ((resolution : ℝ) / scale) with
              | error e => simp only [hf2] at h; cases h
              | ok o2 =>
                simp only [hf2, Except.ok.injEq] at h
                have hfetches : ∀ rc ∈ tileGrid (pyRound (calculate_zoom scale resolution))
                    xmin ymin xmax ymax, ∃ resp, fetch rc = .ok resp := by
                  rw [get_map_features] at hg
                  exact gmfLoop_ok_fetches _ _ _ hg
                exact ⟨rs, xmin, ymin, xmax, ymax, hsize, vsize, scale, lg, wg, rg,
                  rfl, hb, hmc, hg, hfetches, ⟨o1, hf1⟩, ⟨o2, hf2⟩, h.symm⟩
  · intro zoom a b c d
    exact tileGrid_nodup zoom a b c d

/-- One tile whose water collection holds a polygon with no kind key. -/
def tileB : TileResponse := ⟨[], [⟨.polygon [[(0, 0)]], none⟩], []⟩

/-- One tile whose roads collection holds a line with no kind key. -/
def tileC : TileResponse := ⟨[], [], [⟨.lineString [(0, 0)], none⟩]⟩

/-- One tile whose landuse collection holds a polygon with no kind key. -/
def tileD : TileResponse := ⟨[⟨.polygon [[(0, 0)]], none⟩], [], []⟩

/-- The asymmetry of C9 on concrete tiles: a kindless water polygon and a
kindless road line each abort the classification with KeyError, while the
same situation in landuse classifies fine and drops the feature. -/
lemma classify_missing_kind_demo :
    classifyTile id tileB = .error .keyError ∧
    classifyTile id tileC = .error .keyError ∧
    classifyTile id tileD = .ok ([], [], []) :=
  ⟨rfl, rfl, rfl⟩

lemma stats_pair (a b : ℝ) : stats [a, b] = ((a + b) / 2, |a - b| / 2) := by
  simp only [stats, List.map_cons, List.map_nil, List.sum_cons, List.sum_nil,
    List.length_cons, List.length_nil]
  have hm : (a + (b + 0)) / ((0 + 1 + 1 : ℕ) : ℝ) = (a + b) / 2 := by
    push_cast
    ring
  rw [hm]
  have key : ((a - (a + b) / 2) ^ 2 + ((b - (a + b) / 2) ^ 2 + 0)) / ((0 + 1 + 1 : ℕ) : ℝ)
      = ((a - b) / 2) ^ 2 := by
    push_cast
    ring
  rw [key, Real.sqrt_sq_eq_abs, abs_div, abs_two]

lemma calculate_bounds_pair00 (p q : ℝ) (hp : 0 < p) (hq : 0 < q) :
    calculate_bounds [((0 : ℝ), (0 : ℝ)), (p, q)]
      = .ok (0 - (p - 0) / 50, 0 - (q - 0) / 50, p + (p - 0) / 50, q + (q - 0) / 50) := by
  have hsx : stats ([((0 : ℝ), (0 : ℝ)), (p, q)].map Prod.fst) = (p / 2, p / 2) := by
    have hmap : [((0 : ℝ), (0 : ℝ)), (p, q)].map Prod.fst = [0, p] := rfl
    rw [hmap, stats_pair, zero_add, zero_sub, abs_neg, abs_of_pos hp]
  have hsy : stats ([((0 : ℝ), (0 : ℝ)), (p, q)].map Prod.snd) = (q / 2, q / 2) := by
    have hmap : [((0 : ℝ), (0 : ℝ)), (p, q)].map Prod.snd = [0, q] := rfl
    rw [hmap, stats_pair, zero_add, zero_sub, abs_neg, abs_of_pos hq]
  have hox : okay_xs [((0 : ℝ), (0 : ℝ)), (p, q)] = [0, p] := by
    show ([((0 : ℝ), (0 : ℝ)), (p, q)].filter
      (fun r => decide ((stats ([((0 : ℝ), (0 : ℝ)), (p, q)].map Prod.fst)).1
        - 5 * (stats ([((0 : ℝ), (0 : ℝ)), (p, q)].map Prod.fst)).2 ≤ r.1 ∧
        r.1 ≤ (stats ([((0 : ℝ), (0 : ℝ)), (p, q)].map Prod.fst)).1
        + 5 * (stats ([((0 : ℝ), (0 : ℝ)), (p, q)].map Prod.fst)).2))).map Prod.fst = [0, p]
    rw [hsx]
    have hfil : [((0 : ℝ), (0 : ℝ)), (p, q)].filter
        (fun r => decide (((p : ℝ) / 2, (p : ℝ) / 2).1 - 5 * ((p : ℝ) / 2, (p : ℝ) / 2).2 ≤ r.1 ∧
          r.1 ≤ ((p : ℝ) / 2, (p : ℝ) / 2).1 + 5 * ((p : ℝ) / 2, (p : ℝ) / 2).2))
        = [((0 : ℝ), (0 : ℝ)), (p, q)] := by
      apply List.filter_eq_self.mpr
      intro x hx
      apply decide_eq_true
      rcases List.mem_cons.mp hx with rfl | hx2
      · exact ⟨show p / 2 - 5 * (p / 2) ≤ (0 : ℝ) by linarith,
          show (0 : ℝ) ≤ p / 2 + 5 * (p / 2) by linarith⟩
      · cases List.mem_singleton.mp hx2
        exact ⟨show p / 2 - 5 * (p / 2) ≤ p by linarith,
          show p ≤ p / 2 + 5 * (p / 2) by linarith⟩
    rw [hfil]
    rfl
  have hoy : okay_ys [((0 : ℝ), (0 : ℝ)), (p, q)] = [0, q] := by
    show ([((0 : ℝ), (0 : ℝ)), (p, q)].filter
      (fun r => decide ((stats ([((0 : ℝ), (0 : ℝ)), (p, q)].map Prod.snd)).1
        - 3 * (stats ([((0 : ℝ), (0 : ℝ)), (p, q)].map Prod.snd)).2 ≤ r.2 ∧
        r.2 ≤ (stats ([((0 : ℝ), (0 : ℝ)), (p, q)].map Prod.snd)).1
        + 3 * (stats ([((0 : ℝ), (0 : ℝ)), (p, q)].map Prod.snd)).2))).map Prod.snd = [0, q]
    rw [hsy]
    have hfil : [((0 : ℝ), (0 : ℝ)), (p, q)].filter
        (fun r => decide (((q : ℝ) / 2, (q : ℝ) / 2).1 - 3 * ((q : ℝ) / 2, (q : ℝ) / 2).2 ≤ r.2 ∧
          r.2 ≤ ((q : ℝ) / 2, (q : ℝ) / 2).1 + 3 * ((q : ℝ) / 2, (q : ℝ) / 2).2))
        = [((0 : ℝ), (0 : ℝ)), (p, q)] := by
      apply List.filter_eq_self.mpr
      intro x hx
      apply decide_eq_true
      rcases List.mem_cons.mp hx with rfl | hx2
      · exact ⟨show q / 2 - 3 * (q / 2) ≤ (0 : ℝ) by linarith,
          show (0 : ℝ) ≤ q / 2 + 3 * (q / 2) by linarith⟩
      · cases List.mem_singleton.mp hx2
        exact ⟨show q / 2 - 3 * (q / 2) ≤ q by linarith,
          show q ≤ q / 2 + 3 * (q / 2) by linarith⟩
    rw [hfil]
    rfl
  have hminp : pyMin 0 [p] = 0 := by
    show min 0 p = 0
    exact min_eq_left hp.le
  have hmaxp : pyMax 0 [p] = p := by
    show max 0 p = p
    exact max_eq_right hp.le
  have hminq : pyMin 0 [q] = 0 := by
    show min 0 q = 0
    exact min_eq_left hq.le
  have hmaxq : pyMax 0 [q] = q := by
    show max 0 q = q
    exact max_eq_right hq.le
  unfold calculate_bounds
  rw [if_neg (by simp), hox, hoy]
  simp only [hminp, hmaxp, hminq, hmaxq]

lemma gmfLoop_const_empty (proj : ℝ × ℝ → ℝ × ℝ) :
    ∀ (tiles : List (ℤ × ℤ)) (acc : List Geometry × List Geometry × List Geometry),
    gmfLoop proj (fun _ => .ok ⟨[], [], []⟩) tiles acc = .ok acc := by
  intro tiles
  induction tiles with
  | nil => intro acc; rfl
  | cons t rest ih =>
    intro acc
    rw [gmfLoop]
    show gmfLoop proj _ rest (acc.1 ++ [], acc.2.1 ++ [], acc.2.2 ++ []) = .ok acc
    simp only [List.append_nil]
    exact ih acc

lemma gmf_const_empty (proj : ℝ × ℝ → ℝ × ℝ) (xmin ymin xmax ymax : ℝ)
    (resolution : ℕ) (scale : ℝ) :
    get_map_features proj xmin ymin xmax ymax resolution scale (fun _ => .ok ⟨[], [], []⟩)
      = .ok ([], [], []) := by
  rw [get_map_features]
  exact gmfLoop_const_empty proj _ _

/-- The two-row CSV used to demonstrate a full successful render: the origin
and a point at 45 degrees east, 45 degrees north. -/
def demoRows : List Row := [⟨some 0, some 0⟩, ⟨some 45, some 45⟩]

lemma q7_45 : q7 45 = 45 := by
  unfold q7
  rw [show (45 : ℚ) * 10 ^ 7 = ((450000000 : ℤ) : ℚ) by norm_num, round_intCast]
  norm_num

lemma q7_0 : q7 0 = 0 := by
  unfold q7
  rw [zero_mul, round_zero]
  norm_num

lemma project_demo :
    project_points (iterate_file_points demoRows) = [(0, 0), webMercator (45, 45)] := by
  have hit : iterate_file_points demoRows = [(0, 0), (45, 45)] := by
    simp [demoRows, iterate_file_points]
    norm_num
  rw [hit]
  unfold project_points
  simp only [List.map_cons, List.map_nil]
  have h1 : webMercator (((q7 0 : ℚ) : ℝ), ((q7 0 : ℚ) : ℝ)) = (0, 0) := by
    rw [q7_0]
    unfold webMercator
    norm_num [Real.tan_pi_div_four]
  have h2 : webMercator (((q7 45 : ℚ) : ℝ), ((q7 45 : ℚ) : ℝ)) = webMercator (45, 45) := by
    rw [q7_45]
    norm_num
  rw [h1, h2]

lemma webMercator_45_pos :
    0 < (webMercator (45, 45)).1 ∧ 0 < (webMercator (45, 45)).2 := by
  constructor
  · show 0 < (45 : ℝ) * Real.pi / 180 * 6378137
    positivity
  · show 0 < (6378137 : ℝ) * Real.log (Real.tan (Real.pi / 4 + (45 : ℝ) * Real.pi / 360))
    have hang : Real.pi / 4 + (45 : ℝ) * Real.pi / 360 = 3 * Real.pi / 8 := by ring
    rw [hang]
    have h1 : (1 : ℝ) < Real.tan (3 * Real.pi / 8) := by
      rw [← Real.tan_pi_div_four]
      apply Real.tan_lt_tan_of_nonneg_of_lt_pi_div_two
      · positivity
      · linarith [Real.pi_pos]
      · linarith [Real.pi_pos]
    have h2 := Real.log_pos h1
    positivity

/-- A full successful run of the modelled pipeline: two valid rows, a tile
service answering every request with empty collections. This shows the
success case of render is inhabited, so the stage decomposition of the C7
statement is not vacuous. -/
lemma render_eval {rs : List Row} {width resolution : ℕ}
    {fetch : ℤ × ℤ → Except PyError TileResponse} {xmin ymin xmax ymax : ℝ}
    {hsize vsize : ℤ} {scale : ℝ} {lg wg rg : List Geometry}
    {o1 o2 : List (List (ℝ × ℝ))}
    (h1 : calculate_bounds (project_points (iterate_file_points rs)) = .ok (xmin, ymin, xmax, ymax))
    (h2 : make_context xmin ymin xmax ymax width resolution = .ok (hsize, vsize, scale))
    (h3 : get_map_features webMercator xmin ymin xmax ymax resolution scale fetch = .ok (lg, wg, rg))
    (h4 : fill_geometries lg ((resolution : ℝ) / scale) = .ok o1)
    (h5 : fill_geometries wg ((resolution : ℝ) / scale) = .ok o2) :
    render (.ok rs) width resolution fetch
      = .ok ⟨hsize, vsize, lg, wg, rg, project_points (iterate_file_points rs)⟩ := by
  simp only [render, h1, h2, h3, h4, h5]

lemma render_total_demo :
    ∃ out, render (.ok demoRows) 668 1 (fun _ => .ok ⟨[], [], []⟩) = .ok out := by
  obtain ⟨hX, hY⟩ := webMercator_45_pos
  have hpair : webMercator (45, 45) = ((webMercator (45, 45)).1, (webMercator (45, 45)).2) := rfl
  have h1 : calculate_bounds (project_points (iterate_file_points demoRows))
      = .ok (0 - ((webMercator (45, 45)).1 - 0) / 50, 0 - ((webMercator (45, 45)).2 - 0) / 50,
        (webMercator (45, 45)).1 + ((webMercator (45, 45)).1 - 0) / 50,
        (webMercator (45, 45)).2 + ((webMercator (45, 45)).2 - 0) / 50) := by
    rw [project_demo, hpair]
    exact calculate_bounds_pair00 (webMercator (45, 45)).1 (webMercator (45, 45)).2 hX hY
  have h2 := make_context_ok
    (0 - ((webMercator (45, 45)).1 - 0) / 50) (0 - ((webMercator (45, 45)).2 - 0) / 50)
    ((webMercator (45, 45)).1 + ((webMercator (45, 45)).1 - 0) / 50)
    ((webMercator (45, 45)).2 + ((webMercator (45, 45)).2 - 0) / 50)
    668 1 (by linarith) (by linarith)
  exact ⟨_, render_eval h1 h2 (gmf_const_empty _ _ _ _ _ _ _) rfl rfl⟩

end Preview
